import Mathlib

/-!
Shallow embedding of the instant-loopback-recorder core (src/index.js).

The runtime is modelled as a single-threaded event loop: one `Config` record
holds the module-level mutable variables of index.js, and every handler of the
source (handleMIDIMessage, recordMessage, startRecording, stopRecording,
playBack, stopPlayback, the per-emission setTimeout callbacks and the
playback-complete callback) becomes a pure function `Config → Config` taking
the current wall-clock time `now : Int` (JS `Date.now()`) explicitly.

JS numbers are embedded as `Int` for millisecond timestamps and as `ℚ` for the
second-valued arithmetic of `exportMIDI` (the rationals that arise — divisions
by 1000 of integers and their differences — are exact, so `ℚ` is a faithful
model of the double arithmetic on the values the claims are about).

Optional payload fields of a MIDI message object (`msg.channel`,
`msg.velocity`, ...) are `Option Nat`: `none` is JS `undefined`.
-/

namespace Loopback

/-- The MIDI message kinds wired to `handleMIDIMessage` in `initializeMIDI`
(src/index.js lines 185-200). -/
inductive MType where
  | noteon | noteoff | cc | program | chanAftertouch | polyAftertouch
  | pitch | position | mtc | select | clock | start | cont | stop
  | activesense | reset
deriving DecidableEq, Repr

/-- A MIDI message payload; each field is `Option` because a malformed message
object from the Event Source may omit it (JS `undefined`). -/
structure Msg where
  channel : Option Nat := none
  note : Option Nat := none
  velocity : Option Nat := none
  controller : Option Nat := none
  value : Option Nat := none
deriving DecidableEq, Repr

/-- One entry of `recordedMessages`: `{ type, msg: {...msg}, timestamp }`
(src/index.js lines 241-245). `timestamp` is `Date.now() - recordingStartTime`
in milliseconds. -/
structure Recorded where
  type : MType
  msg : Msg
  timestamp : Int
deriving DecidableEq, Repr

/-- JS `x || d` on an optional number: `undefined` and `0` are falsy. -/
def jsOr (o : Option Nat) (d : Nat) : Nat :=
  match o with
  | none => d
  | some v => if v = 0 then d else v

/-- JS `msg.velocity > 0` where `msg.velocity` may be `undefined`
(`undefined > 0` is `false`). -/
def velocityPos (o : Option Nat) : Bool :=
  match o with
  | none => false
  | some v => decide (0 < v)

/-! ## The Sequence Encoder (`exportMIDI`, src/index.js lines 340-421)

Only the pure track-building part of `exportMIDI` is embedded; the file write
(lines 423-429) is I/O outside the algorithmic core. `@tonejs/midi`'s
`track.addNote` / `track.addCC` are modelled as appends to the two lists of the
`Track`; the container library's later byte serialization is out of scope. -/

/-- A note record as passed to `track.addNote`. `midi` is `Option Nat` because
the source passes `recorded.msg.note` through unchecked (it is `undefined` for
a malformed payload). -/
structure Note where
  midi : Option Nat
  time : ℚ
  duration : ℚ
  velocity : Nat
  channel : Nat
deriving DecidableEq, Repr

/-- A control-change record as passed to `track.addCC`; `number` and `value`
are passed through unchecked. -/
structure CCEvent where
  number : Option Nat
  value : Option Nat
  time : ℚ
  channel : Nat
deriving DecidableEq, Repr

/-- The in-memory track being built by `exportMIDI`. -/
structure Track where
  notes : List Note := []
  controlChanges : List CCEvent := []
deriving DecidableEq, Repr

def Track.addNote (t : Track) (n : Note) : Track :=
  { t with notes := t.notes ++ [n] }

def Track.addCC (t : Track) (e : CCEvent) : Track :=
  { t with controlChanges := t.controlChanges ++ [e] }

/-- One value of the `activeNotes` map: `{startTime (seconds), velocity,
channel}` (src/index.js line 343). -/
structure ActiveInfo where
  startTime : ℚ
  velocity : Nat
  channel : Nat
deriving DecidableEq, Repr

/-- The `activeNotes` JS `Map`, as an insertion-ordered association list with
unique keys. The source always deletes a key before re-setting it, so `set` is
modelled as append. -/
abbrev Active := List (Option Nat × ActiveInfo)

/-- The JS map operations `activeNotes.get` and `activeNotes.has`. -/
def lookupActive (n : Option Nat) : Active → Option ActiveInfo
  | [] => none
  | (k, i) :: rest => if k = n then some i else lookupActive n rest

/-- The JS map operation `activeNotes.delete`. -/
def eraseActive (n : Option Nat) : Active → Active
  | [] => []
  | (k, i) :: rest => if k = n then rest else (k, i) :: eraseActive n rest

/-- The encoder's loop state: the track built so far plus the active-note map. -/
structure EncState where
  track : Track
  active : Active
deriving DecidableEq, Repr

/-- The body of `recordedMessages.forEach` in `exportMIDI`
(src/index.js lines 351-407). `t0` is `startTime = recordedMessages[0].timestamp`. -/
def processEvent (t0 : Int) (st : EncState) (r : Recorded) : EncState :=
  let time : ℚ := ((r.timestamp - t0 : Int) : ℚ) / 1000
  if r.type = MType.noteon ∧ velocityPos r.msg.velocity = true then
    let noteNum := r.msg.note
    let channel := jsOr r.msg.channel 0
    let velocity := jsOr r.msg.velocity 100
    let closed : EncState :=
      match lookupActive noteNum st.active with
      | some info =>
          { track := st.track.addNote
              ({ midi := noteNum, time := info.startTime,
                 duration := max (1/1000) (time - info.startTime),
                 velocity := info.velocity, channel := channel }),
            active := eraseActive noteNum st.active }
      | none => st
    { closed with active := closed.active ++
        [(noteNum, { startTime := time, velocity := velocity, channel := channel })] }
  else if r.type = MType.noteoff ∨ (r.type = MType.noteon ∧ r.msg.velocity = some 0) then
    match lookupActive r.msg.note st.active with
    | some info =>
        { track := st.track.addNote
            ({ midi := r.msg.note, time := info.startTime,
               duration := max (1/1000) (time - info.startTime),
               velocity := info.velocity, channel := info.channel }),
          active := eraseActive r.msg.note st.active }
    | none => st
  else if r.type = MType.cc then
    let ev : CCEvent :=
      { number := r.msg.controller, value := r.msg.value,
        time := time, channel := jsOr r.msg.channel 0 }
    { st with track := st.track.addCC ev }
  else
    st

/-- The encoder's starting state: an empty track and an empty active map. -/
def encInit : EncState :=
  { track := { notes := [], controlChanges := [] }, active := [] }

/-- The `activeNotes.forEach` closing pass of `exportMIDI`
(src/index.js lines 409-421): every entry still active after all events are
consumed becomes a note ending at `endTime`, with the minimum-duration floor. -/
def closeRemaining (endTime : ℚ) (act : Active) (tr : Track) : Track :=
  act.foldl
    (fun tr p => tr.addNote
      ({ midi := p.1, time := p.2.startTime,
         duration := max (1/1000) (endTime - p.2.startTime),
         velocity := p.2.velocity, channel := p.2.channel }))
    tr

/-- The pure track-building core of `exportMIDI` (src/index.js lines 340-421):
fold the recorded messages through `processEvent`, then close the remaining
active notes at `endTime = totalDuration / 1000`. The source guards
`exportMIDI` against an empty log before this code runs. -/
def buildTrack (msgs : List Recorded) : Track :=
  let startTime : Int := (msgs.head?.map (fun r => r.timestamp)).getD 0
  let totalDuration : Int := ((msgs.getLast?.map (fun r => r.timestamp)).getD 0) - startTime
  let st := msgs.foldl (processEvent startTime) encInit
  closeRemaining ((totalDuration : ℚ) / 1000) st.active st.track

/-- Does this recorded message open a new active note in the encoder, i.e.
does it take the `noteon && velocity > 0` branch (src/index.js line 355)? -/
def opensNote (r : Recorded) : Bool :=
  decide (r.type = MType.noteon) && velocityPos r.msg.velocity

/-! ## The capture/replay runtime (src/index.js lines 10-17 and 208-330)

`Config` packages the module-level mutable variables. Scheduled `setTimeout`
work is represented by its absolute fire time (`now + delay`) together with the
message to emit; a timer that has fired is removed from the list (re-clearing a
fired JS timeout handle is a no-op, so removal is observationally equivalent to
the stale handle the source keeps in the array). `sinkTrace` records every
message actually delivered to `output.send`, i.e. to the Event Sink; `errors`
records the per-emission send failures caught by the `try/catch` of the
emission callback. `warnings` records the user-visible warning lines. -/

/-- The `state` variable: 'listening' (Idle), 'recording' (Capturing),
'playback' (Replaying). -/
inductive AppState where
  | listening | recording | playback
deriving DecidableEq, Repr

/-- The module-level mutable state of src/index.js (lines 10-17), plus the
observable traces. `recordingStartTime` is JS `null` before the first capture;
it is only ever read while `state = recording`, after `startRecording` has set
it, so it is embedded as an `Int` initialized to 0. -/
structure Config where
  state : AppState
  recordedMessages : List Recorded
  recordingStartTime : Int
  playbackTimeouts : List (Int × Recorded)
  playbackCompleteTimeout : Option Int
  sinkTrace : List Recorded
  errors : List Recorded
  warnings : List String
deriving DecidableEq, Repr

/-- The initial configuration at process start. -/
def initConfig : Config :=
  { state := .listening, recordedMessages := [], recordingStartTime := 0,
    playbackTimeouts := [], playbackCompleteTimeout := none,
    sinkTrace := [], errors := [], warnings := [] }

/-- Source `recordMessage` (src/index.js lines 239-246): push
`{type, msg, timestamp: Date.now() - recordingStartTime}`. -/
def recordMessage (now : Int) (ty : MType) (m : Msg) (c : Config) : Config :=
  { c with recordedMessages := c.recordedMessages ++
      [{ type := ty, msg := m, timestamp := now - c.recordingStartTime }] }

/-- Source `startRecording` (src/index.js lines 249-257): no-op while already
recording; otherwise clear the log, set `recordingStartTime = Date.now()` and
enter the recording state. Note: it does NOT touch `playbackTimeouts` or
`playbackCompleteTimeout`. -/
def startRecording (now : Int) (c : Config) : Config :=
  if c.state = AppState.recording then c
  else { c with recordedMessages := [], recordingStartTime := now,
                state := .recording }

/-- Source `stopRecording` (src/index.js lines 260-267). -/
def stopRecording (c : Config) : Config :=
  if c.state ≠ AppState.recording then c
  else { c with state := .listening }

/-- Source `handleMIDIMessage` (src/index.js lines 209-236). -/
def handleMIDIMessage (now : Int) (ty : MType) (m : Msg) (c : Config) : Config :=
  match c.state with
  | .listening =>
      if ty = MType.noteon then recordMessage now ty m (startRecording now c)
      else if ty = MType.cc ∧ m.controller = some 64 then
        recordMessage now ty m (startRecording now c)
      else c
  | .recording => recordMessage now ty m c
  | .playback =>
      if ty = MType.noteon then recordMessage now ty m (startRecording now c)
      else if ty = MType.cc ∧ m.controller = some 64 then
        recordMessage now ty m (startRecording now c)
      else c

/-- Source `playBack` (src/index.js lines 270-313): warn-and-return while already in
playback or with an empty log; otherwise clear any existing timers, schedule
one emission per recorded message at delay `recorded.timestamp`, and schedule
the completion callback at the last message's timestamp plus a 100 ms buffer. -/
def playBack (now : Int) (c : Config) : Config :=
  if c.state = AppState.playback then
    { c with warnings := c.warnings ++ ["Already playing back"] }
  else if c.recordedMessages = [] then
    { c with warnings := c.warnings ++ ["No recorded MIDI to play"] }
  else
    { c with state := .playback,
             playbackTimeouts :=
               c.recordedMessages.map (fun r => (now + r.timestamp, r)),
             playbackCompleteTimeout :=
               some (now + ((c.recordedMessages.getLast?.map
                 (fun r => r.timestamp)).getD 0) + 100) }

/-- Source `stopPlayback` (src/index.js lines 316-330): clear every pending emission
timer and the completion timer, then return to listening. -/
def stopPlayback (c : Config) : Config :=
  if c.state ≠ AppState.playback then c
  else { c with playbackTimeouts := [], playbackCompleteTimeout := none,
                state := .listening }

/-- One scheduled emission callback firing (the `setTimeout` body at
src/index.js lines 294-300): `try { output.send(...) } catch { log error }`.
`i` selects the pending timer; it fires only once its scheduled time has been
reached. `fails` says whether this `output.send` call throws; either way the
callback completes and the rest of the session is untouched. -/
def fireEmit (now : Int) (i : Nat) (fails : Bool) (c : Config) : Config :=
  match c.playbackTimeouts.get? i with
  | none => c
  | some (t, r) =>
      if t ≤ now then
        { c with playbackTimeouts := c.playbackTimeouts.eraseIdx i,
                 sinkTrace := if fails then c.sinkTrace else c.sinkTrace ++ [r],
                 errors := if fails then c.errors ++ [r] else c.errors }
      else c

/-- The playback-complete callback firing (src/index.js lines 306-312): it
sets `state = 'listening'` unconditionally and resets the timer bookkeeping. -/
def fireDone (now : Int) (c : Config) : Config :=
  match c.playbackCompleteTimeout with
  | none => c
  | some t =>
      if t ≤ now then
        { c with state := .listening, playbackTimeouts := [],
                 playbackCompleteTimeout := none }
      else c

/-- The `exportMIDI` empty-log guard (src/index.js lines 334-337); the track
construction itself is `buildTrack` and the file write is out of scope. -/
def exportGuard (c : Config) : Config :=
  if c.recordedMessages = [] then
    { c with warnings := c.warnings ++ ["No recorded MIDI to export"] }
  else c

/-- One external stimulus dispatched by the event loop: a MIDI message from the
Event Source, a keyboard command ('s', 'p', 'e' in `setupKeyboardInput`,
src/index.js lines 448-506), or one of the session's timers firing. -/
inductive Stim where
  | midi (ty : MType) (m : Msg)
  | keyS
  | keyP
  | keyE
  | fireEmitAt (i : Nat) (fails : Bool)
  | fireDoneNow
deriving DecidableEq, Repr

/-- Dispatch of one stimulus at wall-clock time `now` (the run-to-completion
handlers of src/index.js). The 's' key dispatches exactly as lines 462-469. -/
def step (now : Int) (c : Config) (s : Stim) : Config :=
  match s with
  | .midi ty m => handleMIDIMessage now ty m c
  | .keyS =>
      if c.state = AppState.recording then stopRecording c
      else if c.state = AppState.playback then stopPlayback c
      else c
  | .keyP => playBack now c
  | .keyE => exportGuard c
  | .fireEmitAt i fails => fireEmit now i fails c
  | .fireDoneNow => fireDone now c

/-- A whole run of the event loop: stimuli with their (non-decreasing) arrival
times, dispatched in order. -/
def run (c : Config) : List (Int × Stim) → Config
  | [] => c
  | (t, s) :: rest => run (step t c s) rest

/-! ## Aggregate emission semantics for one replay session

`playBack` schedules one independent `setTimeout` callback per recorded
message; each callback is `try { output.send(...) } catch { console.error }`
(src/index.js lines 293-302), so a throwing send is caught inside its own
callback and the remaining callbacks run untouched. `runEmissionsAux` plays
all the scheduled callbacks in schedule order against a failure pattern
`fails` (whether the `i`-th `output.send` call throws), collecting the
delivered messages and the per-event logged errors. -/

def runEmissionsAux (fails : Nat → Bool) : Nat → List Recorded → List Recorded × List Recorded
  | _, [] => ([], [])
  | i, r :: rest =>
      let p := runEmissionsAux fails (i + 1) rest
      if fails i then (p.1, r :: p.2) else (r :: p.1, p.2)

/-- All scheduled emissions of one session, fired in order: first component
the messages delivered to the Event Sink, second the messages whose send
failed (and were logged). -/
def runEmissions (fails : Nat → Bool) (msgs : List Recorded) : List Recorded × List Recorded :=
  runEmissionsAux fails 0 msgs

/-! ## Spec-side substitution maps (for the defaulting claim)

These two functions are not part of the source; they express the spec's
sentence "default channel = 0 and default velocity = 100 are substituted when
a captured event's payload omits them" as explicit normalizations, to be
compared with what the encoder actually does. -/

/-- Replace an omitted channel field by an explicit channel 0. -/
def defaultChannelField (r : Recorded) : Recorded :=
  if r.msg.channel = none then { r with msg := { r.msg with channel := some 0 } } else r

/-- Replace an omitted velocity field by an explicit velocity 100. -/
def defaultVelocityField (r : Recorded) : Recorded :=
  if r.msg.velocity = none then { r with msg := { r.msg with velocity := some 100 } } else r

/-! ## Concrete inputs used by the example-based theorems and witnesses -/

/-- A note message payload with every relevant field present. -/
def msgNote (ch n v : Nat) : Msg :=
  { channel := some ch, note := some n, velocity := some v }

/-- The four-event take of the encoder scenario. -/
def scenarioLog : List Recorded :=
  [ { type := .noteon, msg := msgNote 0 60 100, timestamp := 0 },
    { type := .noteoff, msg := msgNote 0 60 0, timestamp := 500 },
    { type := .noteon, msg := msgNote 0 64 90, timestamp := 500 },
    { type := .noteoff, msg := msgNote 0 64 0, timestamp := 1200 } ]

/-- A take that retriggers note 60 on a different channel: channel 1 at offset
0, then channel 2 at offset 100. -/
def retriggerLog : List Recorded :=
  [ { type := .noteon, msg := msgNote 1 60 50, timestamp := 0 },
    { type := .noteon, msg := msgNote 2 60 70, timestamp := 100 } ]

/-- A take whose opening NoteOn omits its velocity field. -/
def omittedVelLog : List Recorded :=
  [ { type := .noteon, msg := { channel := some 0, note := some 60 }, timestamp := 0 },
    { type := .noteoff, msg := msgNote 0 60 0, timestamp := 500 } ]

/-- A take whose events omit their channel fields. -/
def omittedChLog : List Recorded :=
  [ { type := .noteon, msg := { note := some 60, velocity := some 100 }, timestamp := 0 },
    { type := .noteoff, msg := { note := some 60, velocity := some 0 }, timestamp := 400 } ]

/-- A single dangling NoteOn (the spec's one-event scenario). -/
def danglingLog : List Recorded :=
  [ { type := .noteon, msg := msgNote 0 60 100, timestamp := 0 } ]

/-- A full event-loop history: record a two-message take (t=0..500), stop it
(t=600), start replay (t=700), let the first scheduled emission fire (t=700),
then preempt the replay with a new NoteOn (t=900). At that point the source
has entered the recording state without cancelling the second scheduled
emission (due at t=1200) or the completion callback (due at t=1300). -/
def preemptRun : List (Int × Stim) :=
  [ (0, .midi .noteon (msgNote 0 60 100)),
    (500, .midi .noteoff (msgNote 0 60 0)),
    (600, .keyS),
    (700, .keyP),
    (700, .fireEmitAt 0 false),
    (900, .midi .noteon (msgNote 0 64 95)) ]

/-- The configuration right after the preempting NoteOn handler returned. -/
def cPre : Config := run initConfig preemptRun

/-- The second message of the preempted take, still scheduled at preemption. -/
def leakedEmission : Recorded :=
  { type := .noteoff, msg := msgNote 0 60 0, timestamp := 500 }

/-- The configuration after the leftover emission timer fired at t=1200. -/
def cPostEmit : Config := step 1200 cPre (Stim.fireEmitAt 0 false)

/-- A two-event capture history under a monotonic clock. -/
def demoRun : List (Int × Stim) :=
  [ (0, .midi .noteon (msgNote 0 60 100)),
    (5, .midi .noteoff (msgNote 0 60 0)) ]

/-- A recording-state configuration holding a one-message partial take. -/
def capturingCfg : Config :=
  { initConfig with state := .recording,
                    recordedMessages := [ { type := .noteon, msg := msgNote 0 60 100, timestamp := 0 } ] }

/-! # Theorems -/

/-- C3: encoding the four-event log [NoteOn(60,vel 100,0ms), NoteOff(60,500ms),
NoteOn(64,vel 90,500ms), NoteOff(64,1200ms)] produces exactly two notes:
pitch 60 starting at 0 s with duration 0.5 s and velocity 100, and pitch 64
starting at 0.5 s with duration 0.7 s and velocity 90. -/
theorem encode_scenario_two_notes :
    buildTrack scenarioLog =
      { notes :=
          [ { midi := some 60, time := 0, duration := 1/2, velocity := 100, channel := 0 },
            { midi := some 64, time := 1/2, duration := 7/10, velocity := 90, channel := 0 } ],
        controlChanges := [] } := by
  simp [buildTrack, processEvent, scenarioLog, msgNote, velocityPos, jsOr,
        lookupActive, eraseActive, Track.addNote, Track.addCC, encInit, closeRemaining]
  norm_num

/-- C1 (code evaluated at the failing input): after a NoteOn preempts replay at
t=900, the session is capturing and the new log holds only the trigger at
offset 0 — but the preempted session's emission timer is still pending, and
when it fires at t=1200 its message is delivered to the Event Sink, violating
the no-residual-emission requirement. -/
theorem preemption_leaks_scheduled_emission :
    cPre.state = AppState.recording ∧
    cPre.recordedMessages = [{ type := .noteon, msg := msgNote 0 64 95, timestamp := 0 }] ∧
    cPre.playbackTimeouts = [(1200, leakedEmission)] ∧
    (step 1200 cPre (Stim.fireEmitAt 0 false)).sinkTrace = cPre.sinkTrace ++ [leakedEmission] := by
  decide

/-- C2 (code evaluated at the failing input): at t=1300 the completion callback
of the preempted replay session fires while the state is Capturing, and it
overwrites the state to Idle unconditionally (src/index.js line 307 has no
still-Replaying check), instead of leaving the preempting capture alone. -/
theorem completion_callback_overwrites_capture :
    cPostEmit.state = AppState.recording ∧
    cPostEmit.playbackCompleteTimeout = some 1300 ∧
    (step 1300 cPostEmit Stim.fireDoneNow).state = AppState.listening ∧
    ¬ (step 1300 cPostEmit Stim.fireDoneNow).state = cPostEmit.state := by
  decide

/-- C6: the play command is a warning-only no-op when the log is empty (state
stays Idle) and when a replay is already running (no restart): state, log,
pending emission timers and the completion timer are all unchanged, and exactly
one warning line is reported. -/
theorem play_noop_cases (now : Int) (c : Config)
    (h : c.state = AppState.playback ∨
         (c.state = AppState.listening ∧ c.recordedMessages = [])) :
    (playBack now c).state = c.state ∧
    (playBack now c).recordedMessages = c.recordedMessages ∧
    (playBack now c).playbackTimeouts = c.playbackTimeouts ∧
    (playBack now c).playbackCompleteTimeout = c.playbackCompleteTimeout ∧
    (playBack now c).warnings = c.warnings ++
      [if c.state = AppState.playback then "Already playing back"
       else "No recorded MIDI to play"] := by
  rcases h with h | ⟨h1, h2⟩
  · simp [playBack, h]
  · simp [playBack, h1, h2]

/-- Witness for C6 at the initial configuration (Idle, empty log). -/
theorem play_noop_cases_witness :
    (playBack 0 initConfig).state = initConfig.state ∧
    (playBack 0 initConfig).recordedMessages = initConfig.recordedMessages ∧
    (playBack 0 initConfig).playbackTimeouts = initConfig.playbackTimeouts ∧
    (playBack 0 initConfig).playbackCompleteTimeout = initConfig.playbackCompleteTimeout ∧
    (playBack 0 initConfig).warnings = initConfig.warnings ++
      [if initConfig.state = AppState.playback then "Already playing back"
       else "No recorded MIDI to play"] :=
  play_noop_cases 0 initConfig (Or.inr ⟨rfl, rfl⟩)

/-- C10: the play command issued while Capturing with a non-empty log is not
rejected: the state goes directly from Capturing to Replaying, the partial
take is left in place and every one of its messages is scheduled for replay,
with no warning reported. -/
theorem play_during_capture (now : Int) (c : Config)
    (hs : c.state = AppState.recording) (hne : c.recordedMessages ≠ []) :
    (step now c Stim.keyP).state = AppState.playback ∧
    (step now c Stim.keyP).recordedMessages = c.recordedMessages ∧
    (step now c Stim.keyP).playbackTimeouts =
      c.recordedMessages.map (fun r => (now + r.timestamp, r)) ∧
    (step now c Stim.keyP).warnings = c.warnings := by
  have h1 : ¬ c.state = AppState.playback := by rw [hs]; intro h; cases h
  simp [step, hs, playBack, h1, hne]

/-- Witness for C10: a capturing configuration with a one-message partial take. -/
theorem play_during_capture_witness :
    (step 50 capturingCfg Stim.keyP).state = AppState.playback ∧
    (step 50 capturingCfg Stim.keyP).recordedMessages = capturingCfg.recordedMessages ∧
    (step 50 capturingCfg Stim.keyP).playbackTimeouts =
      capturingCfg.recordedMessages.map (fun r => (50 + r.timestamp, r)) ∧
    (step 50 capturingCfg Stim.keyP).warnings = capturingCfg.warnings :=
  play_during_capture 50 capturingCfg (by decide) (by decide)

/-- C4 counterexample: retriggering note 60 (opened on channel 1, retriggered
on channel 2) closes the first note with the CURRENT event's channel 2, not
the previous note's channel 1 as the claim states (src/index.js line 370 uses
`channel`, the current event's channel, unlike the NoteOff branch's
`noteInfo.channel` at line 394). -/
theorem retrigger_channel_counterexample :
    (buildTrack retriggerLog).notes.map (fun n => n.channel) = [2, 2] ∧
    ¬ (buildTrack retriggerLog).notes.map (fun n => n.channel) = [1, 2] := by
  constructor
  · simp [buildTrack, processEvent, retriggerLog, msgNote, velocityPos, jsOr,
          lookupActive, eraseActive, Track.addNote, encInit, closeRemaining]
  · intro h
    simp [buildTrack, processEvent, retriggerLog, msgNote, velocityPos, jsOr,
          lookupActive, eraseActive, Track.addNote, encInit, closeRemaining] at h

/-- C8 counterexample: a NoteOn whose payload omits the velocity field is not
encoded as velocity 100 — it is dropped entirely (its log produces an empty
track), whereas explicitly substituting velocity 100 into the log produces a
note; so the encoder does not substitute the claimed velocity default. -/
theorem omitted_velocity_counterexample :
    (buildTrack omittedVelLog).notes = [] ∧
    ¬ buildTrack (omittedVelLog.map defaultVelocityField) = buildTrack omittedVelLog := by
  constructor
  · simp [buildTrack, processEvent, omittedVelLog, msgNote, velocityPos, jsOr,
          lookupActive, eraseActive, Track.addNote, encInit, closeRemaining]
  · intro h
    simp [buildTrack, processEvent, omittedVelLog, defaultVelocityField, msgNote,
          velocityPos, jsOr, lookupActive, eraseActive, Track.addNote, encInit,
          closeRemaining] at h

theorem runEmissionsAux_eq (fails : Nat → Bool) (msgs : List Recorded) :
    ∀ n : Nat,
      runEmissionsAux fails n msgs =
        (((List.enumFrom n msgs).filter (fun p => !fails p.1)).map Prod.snd,
         ((List.enumFrom n msgs).filter (fun p => fails p.1)).map Prod.snd) := by
  induction msgs with
  | nil => intro n; simp [runEmissionsAux]
  | cons r rest ih =>
      intro n
      simp only [runEmissionsAux, List.enumFrom, ih (n + 1), List.filter]
      cases h : fails n <;> simp [h]

theorem runEmissionsAux_length (fails : Nat → Bool) (msgs : List Recorded) :
    ∀ n : Nat,
      (runEmissionsAux fails n msgs).1.length + (runEmissionsAux fails n msgs).2.length =
        msgs.length := by
  induction msgs with
  | nil => intro n; simp [runEmissionsAux]
  | cons r rest ih =>
      intro n
      simp only [runEmissionsAux]
      cases h : fails n <;> simp [h] <;> have := ih (n + 1) <;> omega

/-- C7: per-event isolation of Event Sink failures during replay. For every
schedule of emissions and every failure pattern, each scheduled emission is
attempted independently: the delivered messages are exactly the non-failing
ones (in order), the logged errors exactly the failing ones, every scheduled
emission is accounted for (no abort), and an emission callback — failing or
not — never touches the session's state or its pending completion timer. -/
theorem sink_failures_isolated :
    (∀ (fails : Nat → Bool) (msgs : List Recorded),
       (runEmissions fails msgs).1 =
         ((msgs.enum.filter (fun p => !fails p.1)).map Prod.snd) ∧
       (runEmissions fails msgs).2 =
         ((msgs.enum.filter (fun p => fails p.1)).map Prod.snd) ∧
       (runEmissions fails msgs).1.length + (runEmissions fails msgs).2.length =
         msgs.length) ∧
    (∀ (now : Int) (i : Nat) (b : Bool) (c : Config),
       (fireEmit now i b c).state = c.state ∧
       (fireEmit now i b c).playbackCompleteTimeout = c.playbackCompleteTimeout ∧
       (fireEmit now i b c).recordedMessages = c.recordedMessages) := by
  constructor
  · intro fails msgs
    have h := runEmissionsAux_eq fails msgs 0
    have hl := runEmissionsAux_length fails msgs 0
    refine ⟨?_, ?_, hl⟩ <;> simp [runEmissions, h, List.enum]
  · intro now i b c
    unfold fireEmit
    cases h : c.playbackTimeouts.get? i with
    | none => exact ⟨rfl, rfl, rfl⟩
    | some p =>
        obtain ⟨t, r⟩ := p
        by_cases hle : t ≤ now <;> simp [hle]

theorem defaultChannelField_timestamp (r : Recorded) :
    (defaultChannelField r).timestamp = r.timestamp := by
  unfold defaultChannelField
  split <;> rfl

theorem processEvent_defaultChannel (t0 : Int) (st : EncState) (r : Recorded) :
    processEvent t0 st (defaultChannelField r) = processEvent t0 st r := by
  unfold defaultChannelField
  split
  case isTrue h => simp [processEvent, h, jsOr]
  case isFalse h => rfl

theorem buildTrack_map_defaultChannel (msgs : List Recorded) :
    buildTrack (msgs.map defaultChannelField) = buildTrack msgs := by
  have hfold : ∀ t0 : Int,
      (msgs.map defaultChannelField).foldl (processEvent t0) encInit =
        msgs.foldl (processEvent t0) encInit := by
    intro t0
    rw [List.foldl_map]
    congr 1
    funext st r
    exact processEvent_defaultChannel t0 st r
  have hcomp : ((fun r : Recorded => r.timestamp) ∘ defaultChannelField) =
      (fun r : Recorded => r.timestamp) := funext defaultChannelField_timestamp
  simp only [buildTrack, List.head?_map, List.getLast?_map, Option.map_map,
             hcomp, hfold]

/-- C8 (amended): an omitted channel field is defaulted to channel 0 by the
encoder (encoding a log with every omitted channel replaced by an explicit 0
yields the identical track), but an omitted velocity is never defaulted to
100: a NoteOn whose payload omits the velocity field fails the `velocity > 0`
test and the `velocity === 0` test alike and is ignored entirely — no record
is emitted for it and no active note is opened or closed. -/
theorem encoder_field_defaults :
    (∀ msgs : List Recorded,
       buildTrack (msgs.map defaultChannelField) = buildTrack msgs) ∧
    (∀ (t0 : Int) (st : EncState) (r : Recorded),
       r.type = MType.noteon → r.msg.velocity = none →
       processEvent t0 st r = st) := by
  constructor
  · exact buildTrack_map_defaultChannel
  · intro t0 st r hty hv
    simp [processEvent, hty, hv, velocityPos]

/-- Witness for C8 (amended): a take whose events omit the channel field, and
a NoteOn whose payload omits the velocity field. -/
theorem encoder_field_defaults_witness :
    buildTrack (omittedChLog.map defaultChannelField) = buildTrack omittedChLog ∧
    processEvent 0 encInit { type := .noteon, msg := { note := some 60 }, timestamp := 0 } = encInit :=
  ⟨encoder_field_defaults.1 omittedChLog,
   encoder_field_defaults.2 0 encInit { type := .noteon, msg := { note := some 60 }, timestamp := 0 } rfl rfl⟩

/-- C4 (amended): when a NoteOn with velocity > 0 arrives for a note number
that is already active, the encoder first closes the prior note from the
active entry's start to the current time (with the 1 ms minimum-duration
floor) using the previous note's velocity but the CURRENT event's channel
(defaulted to 0), and then opens a new active entry at the current time with
the new event's velocity and channel. -/
theorem retrigger_close_then_open (t0 : Int) (st : EncState) (r : Recorded)
    (v : Nat) (info : ActiveInfo)
    (hty : r.type = MType.noteon) (hv : r.msg.velocity = some v) (hpos : 0 < v)
    (hact : lookupActive r.msg.note st.active = some info) :
    processEvent t0 st r =
      { track := st.track.addNote
          ({ midi := r.msg.note, time := info.startTime,
             duration := max (1/1000)
               (((r.timestamp - t0 : Int) : ℚ) / 1000 - info.startTime),
             velocity := info.velocity, channel := jsOr r.msg.channel 0 }),
        active := eraseActive r.msg.note st.active ++
          [(r.msg.note,
            { startTime := ((r.timestamp - t0 : Int) : ℚ) / 1000,
              velocity := v, channel := jsOr r.msg.channel 0 })] } := by
  have hvne : v ≠ 0 := Nat.pos_iff_ne_zero.mp hpos
  have hvp : velocityPos r.msg.velocity = true := by
    rw [hv]; simp [velocityPos, hpos]
  have hv100 : jsOr r.msg.velocity 100 = v := by
    rw [hv]; simp [jsOr, hvne]
  unfold processEvent
  rw [if_pos ⟨hty, hvp⟩]
  simp [hact, hv100]

/-- Witness for C4 (amended): note 60 active on channel 1 with velocity 50,
retriggered by a NoteOn on channel 2 with velocity 70 at offset 100 ms. -/
theorem retrigger_close_then_open_witness :
    processEvent 0
        { track := { notes := [], controlChanges := [] },
          active := [(some 60, { startTime := 0, velocity := 50, channel := 1 })] }
        { type := .noteon, msg := msgNote 2 60 70, timestamp := 100 } =
      { track := Track.addNote { notes := [], controlChanges := [] }
          ({ midi := some 60, time := 0,
             duration := max (1/1000) ((((100 : Int) - 0 : Int) : ℚ) / 1000 - 0),
             velocity := 50, channel := 2 }),
        active := [(some 60,
          { startTime := (((100 : Int) - 0 : Int) : ℚ) / 1000,
            velocity := 70, channel := 2 })] } :=
  retrigger_close_then_open 0
    { track := { notes := [], controlChanges := [] },
      active := [(some 60, { startTime := 0, velocity := 50, channel := 1 })] }
    { type := .noteon, msg := msgNote 2 60 70, timestamp := 100 }
    70 { startTime := 0, velocity := 50, channel := 1 } rfl rfl (by decide) rfl

theorem lookupActive_erase_length (n : Option Nat) (i : ActiveInfo) :
    ∀ a : Active, lookupActive n a = some i → (eraseActive n a).length + 1 = a.length := by
  intro a
  induction a with
  | nil => intro h; cases h
  | cons p rest ih =>
      obtain ⟨k, w⟩ := p
      intro h
      by_cases hk : k = n
      · simp [eraseActive, hk]
      · simp only [lookupActive, if_neg hk] at h
        simp [eraseActive, hk, ih h]

theorem opensNote_iff (r : Recorded) :
    opensNote r = true ↔ (r.type = MType.noteon ∧ velocityPos r.msg.velocity = true) := by
  simp [opensNote]

theorem processEvent_count_open (t0 : Int) (st : EncState) (r : Recorded)
    (ho : opensNote r = true) :
    (processEvent t0 st r).track.notes.length + (processEvent t0 st r).active.length =
      st.track.notes.length + st.active.length + 1 := by
  have h1 := (opensNote_iff r).mp ho
  unfold processEvent
  rw [if_pos h1]
  cases hl : lookupActive r.msg.note st.active with
  | none =>
      simp [hl]
      omega
  | some info =>
      have hlen := lookupActive_erase_length r.msg.note info st.active hl
      simp [hl, Track.addNote]
      omega

theorem processEvent_count_noopen (t0 : Int) (st : EncState) (r : Recorded)
    (ho : opensNote r = false) :
    (processEvent t0 st r).track.notes.length + (processEvent t0 st r).active.length =
      st.track.notes.length + st.active.length := by
  have h1 : ¬ (r.type = MType.noteon ∧ velocityPos r.msg.velocity = true) := by
    intro hh
    rw [(opensNote_iff r).mpr hh] at ho
    cases ho
  unfold processEvent
  rw [if_neg h1]
  split_ifs with h2 h3
  · cases hl : lookupActive r.msg.note st.active with
    | none => simp [hl]
    | some info =>
        have hlen := lookupActive_erase_length r.msg.note info st.active hl
        simp [hl, Track.addNote]
        omega
  · simp [Track.addCC]
  · simp

theorem processEvent_count (t0 : Int) (st : EncState) (r : Recorded) :
    (processEvent t0 st r).track.notes.length + (processEvent t0 st r).active.length =
      st.track.notes.length + st.active.length + (if opensNote r then 1 else 0) := by
  cases ho : opensNote r
  · rw [processEvent_count_noopen t0 st r ho]
    simp
  · rw [processEvent_count_open t0 st r ho]
    simp

theorem foldl_count (t0 : Int) (msgs : List Recorded) :
    ∀ st : EncState,
      (msgs.foldl (processEvent t0) st).track.notes.length +
          (msgs.foldl (processEvent t0) st).active.length =
        st.track.notes.length + st.active.length +
          msgs.countP (fun r => opensNote r) := by
  induction msgs with
  | nil => intro st; simp
  | cons r rest ih =>
      intro st
      rw [List.foldl_cons]
      rw [ih (processEvent t0 st r)]
      simp only [List.countP_cons]
      have := processEvent_count t0 st r
      omega

theorem closeRemaining_eq (endT : ℚ) :
    ∀ (act : Active) (tr : Track),
      closeRemaining endT act tr =
        { notes := tr.notes ++ act.map (fun p =>
            ({ midi := p.1, time := p.2.startTime,
               duration := max (1/1000) (endT - p.2.startTime),
               velocity := p.2.velocity, channel := p.2.channel } : Note)),
          controlChanges := tr.controlChanges } := by
  intro act
  induction act with
  | nil => intro tr; simp [closeRemaining]
  | cons p rest ih =>
      intro tr
      have h1 : closeRemaining endT (p :: rest) tr =
          closeRemaining endT rest (tr.addNote
            ({ midi := p.1, time := p.2.startTime,
               duration := max (1/1000) (endT - p.2.startTime),
               velocity := p.2.velocity, channel := p.2.channel } : Note)) := rfl
      rw [h1, ih]
      simp [Track.addNote]

theorem processEvent_duration_mem (t0 : Int) (st : EncState) (r : Recorded) :
    ∀ n ∈ (processEvent t0 st r).track.notes,
      n ∈ st.track.notes ∨ (1:ℚ)/1000 ≤ n.duration := by
  intro n hn
  unfold processEvent at hn
  dsimp only at hn
  split_ifs at hn with h1 h2 h3
  · cases hl : lookupActive r.msg.note st.active with
    | none =>
        rw [hl] at hn
        exact Or.inl hn
    | some info =>
        rw [hl] at hn
        simp only [Track.addNote, List.mem_append, List.mem_singleton] at hn
        rcases hn with hn | hn
        · exact Or.inl hn
        · right
          rw [hn]
          exact le_max_left _ _
  · cases hl : lookupActive r.msg.note st.active with
    | none =>
        rw [hl] at hn
        exact Or.inl hn
    | some info =>
        rw [hl] at hn
        simp only [Track.addNote, List.mem_append, List.mem_singleton] at hn
        rcases hn with hn | hn
        · exact Or.inl hn
        · right
          rw [hn]
          exact le_max_left _ _
  · simp only [Track.addCC] at hn
    exact Or.inl hn
  · exact Or.inl hn

theorem foldl_duration (t0 : Int) (msgs : List Recorded) :
    ∀ st : EncState, (∀ n ∈ st.track.notes, (1:ℚ)/1000 ≤ n.duration) →
      ∀ n ∈ (msgs.foldl (processEvent t0) st).track.notes, (1:ℚ)/1000 ≤ n.duration := by
  induction msgs with
  | nil => intro st h; exact h
  | cons r rest ih =>
      intro st h
      refine ih (processEvent t0 st r) ?_
      intro n hn
      rcases processEvent_duration_mem t0 st r n hn with h1 | h1
      · exact h n h1
      · exact h1

/-- C5: for a non-empty Event Log containing at least one NoteOn, the encoded
track has no unterminated and no under-length note: every note record carries
duration ≥ 0.001 s (the 1 ms floor), the number of emitted notes equals the
number of note-opening NoteOns (every opened note is closed exactly once,
dangling or not), and the final pass closes each still-active entry at the
end time with the same minimum-duration floor. -/
theorem no_dangling_notes (msgs : List Recorded) (hne : msgs ≠ [])
    (hnote : ∃ r ∈ msgs, r.type = MType.noteon) :
    (∀ n ∈ (buildTrack msgs).notes, (1:ℚ)/1000 ≤ n.duration) ∧
    (buildTrack msgs).notes.length = msgs.countP (fun r => opensNote r) ∧
    (∀ (endT : ℚ) (act : Active) (tr : Track),
      closeRemaining endT act tr =
        { notes := tr.notes ++ act.map (fun p =>
            ({ midi := p.1, time := p.2.startTime,
               duration := max (1/1000) (endT - p.2.startTime),
               velocity := p.2.velocity, channel := p.2.channel } : Note)),
          controlChanges := tr.controlChanges }) := by
  refine ⟨?_, ?_, fun endT act tr => closeRemaining_eq endT act tr⟩
  · simp only [buildTrack, closeRemaining_eq]
    intro n hn
    simp only [List.mem_append] at hn
    rcases hn with hn | hn
    · exact foldl_duration _ msgs encInit (by simp [encInit]) n hn
    · obtain ⟨p, hp, rfl⟩ := List.mem_map.mp hn
      exact le_max_left _ _
  · have hcount := foldl_count ((msgs.head?.map (fun r => r.timestamp)).getD 0) msgs encInit
    rw [show encInit.track.notes.length = 0 from rfl,
        show encInit.active.length = 0 from rfl] at hcount
    simp only [buildTrack, closeRemaining_eq, List.length_append, List.length_map]
    omega

/-- Witness for C5: the spec's one-event scenario, a single dangling NoteOn. -/
theorem no_dangling_notes_witness :
    (danglingLog ≠ [] ∧ ∃ r ∈ danglingLog, r.type = MType.noteon) ∧
    ((∀ n ∈ (buildTrack danglingLog).notes, (1:ℚ)/1000 ≤ n.duration) ∧
     (buildTrack danglingLog).notes.length = danglingLog.countP (fun r => opensNote r) ∧
     (∀ (endT : ℚ) (act : Active) (tr : Track),
       closeRemaining endT act tr =
         { notes := tr.notes ++ act.map (fun p =>
             ({ midi := p.1, time := p.2.startTime,
                duration := max (1/1000) (endT - p.2.startTime),
                velocity := p.2.velocity, channel := p.2.channel } : Note)),
           controlChanges := tr.controlChanges })) :=
  ⟨⟨by decide, ⟨{ type := .noteon, msg := msgNote 0 60 100, timestamp := 0 }, by decide, rfl⟩⟩,
   no_dangling_notes danglingLog (by decide)
     ⟨{ type := .noteon, msg := msgNote 0 60 100, timestamp := 0 }, by decide, rfl⟩⟩

/-- The inductive invariant behind the monotone-offset property: the stored
offsets are non-decreasing, and — while capturing — every stored offset plus
the capture's start time is bounded by the current wall-clock time `t` (so a
later append, whose offset is `now - recordingStartTime`, can only be larger). -/
def LogInv (t : Int) (c : Config) : Prop :=
  List.Pairwise (fun a b => a ≤ b) (c.recordedMessages.map (fun r => r.timestamp)) ∧
  (c.state = AppState.recording →
    ∀ r ∈ c.recordedMessages, r.timestamp + c.recordingStartTime ≤ t)

theorem logInv_mono {t t' : Int} {c : Config} (h : LogInv t c) (hle : t ≤ t') :
    LogInv t' c :=
  ⟨h.1, fun hs r hr => le_trans (h.2 hs r hr) hle⟩

theorem logInv_untouched {t : Int} {c c' : Config} (h : LogInv t c)
    (hlog : c'.recordedMessages = c.recordedMessages)
    (hst : c'.recordingStartTime = c.recordingStartTime)
    (hstate : c'.state = AppState.recording → c.state = AppState.recording) :
    LogInv t c' := by
  obtain ⟨hpw, hub⟩ := h
  constructor
  · rw [hlog]
    exact hpw
  · intro hs r hr
    rw [hlog] at hr
    rw [hst]
    exact hub (hstate hs) r hr

theorem recordMessage_inv {t : Int} {c : Config} (ty : MType) (m : Msg)
    (h : LogInv t c) (hrec : c.state = AppState.recording) :
    LogInv t (recordMessage t ty m c) := by
  obtain ⟨hpw, hub⟩ := h
  constructor
  · simp only [recordMessage, List.map_append, List.map_cons, List.map_nil]
    rw [List.pairwise_append]
    refine ⟨hpw, List.pairwise_singleton _ _, ?_⟩
    intro a ha b hb
    simp only [List.mem_singleton] at hb
    subst hb
    obtain ⟨r, hr, rfl⟩ := List.mem_map.mp ha
    have := hub hrec r hr
    omega
  · intro hs r hr
    simp only [recordMessage, List.mem_append, List.mem_singleton] at hr
    rcases hr with h1 | h1
    · exact hub hrec r h1
    · subst h1
      simp only [recordMessage]
      omega

theorem fresh_capture_inv {t : Int} {c : Config} (ty : MType) (m : Msg)
    (hne : ¬ c.state = AppState.recording) :
    LogInv t (recordMessage t ty m (startRecording t c)) := by
  unfold startRecording
  rw [if_neg hne]
  constructor
  · simp [recordMessage]
  · intro _ r hr
    simp only [recordMessage, List.nil_append, List.mem_singleton] at hr
    subst hr
    simp only [recordMessage]
    omega

theorem step_logInv {t t' : Int} {c : Config} (s : Stim)
    (h : LogInv t c) (hle : t ≤ t') : LogInv t' (step t' c s) := by
  have h' : LogInv t' c := logInv_mono h hle
  cases s with
  | midi ty m =>
      show LogInv t' (handleMIDIMessage t' ty m c)
      unfold handleMIDIMessage
      cases hst : c.state with
      | listening =>
          have hne : ¬ c.state = AppState.recording := by
            rw [hst]
            intro hh
            cases hh
          split_ifs with h1 h2
          · exact fresh_capture_inv ty m hne
          · exact fresh_capture_inv ty m hne
          · exact h'
      | recording => exact recordMessage_inv ty m h' hst
      | playback =>
          have hne : ¬ c.state = AppState.recording := by
            rw [hst]
            intro hh
            cases hh
          split_ifs with h1 h2
          · exact fresh_capture_inv ty m hne
          · exact fresh_capture_inv ty m hne
          · exact h'
  | keyS =>
      show LogInv t' (if c.state = AppState.recording then stopRecording c
        else if c.state = AppState.playback then stopPlayback c else c)
      split_ifs with hs1 hs2
      · refine logInv_untouched h' ?_ ?_ ?_ <;> simp [stopRecording, hs1]
      · refine logInv_untouched h' ?_ ?_ ?_ <;> simp [stopPlayback, hs2]
      · exact h'
  | keyP =>
      show LogInv t' (playBack t' c)
      unfold playBack
      split_ifs with hp1 hp2
      · exact logInv_untouched h' rfl rfl (fun x => x)
      · exact logInv_untouched h' rfl rfl (fun x => x)
      · refine logInv_untouched h' rfl rfl ?_
        intro hx
        cases hx
  | keyE =>
      show LogInv t' (exportGuard c)
      unfold exportGuard
      split_ifs with he
      · exact logInv_untouched h' rfl rfl (fun x => x)
      · exact h'
  | fireEmitAt i b =>
      show LogInv t' (fireEmit t' i b c)
      unfold fireEmit
      split
      · exact h'
      · split_ifs with hf hb
        · exact logInv_untouched h' rfl rfl (fun x => x)
        · exact logInv_untouched h' rfl rfl (fun x => x)
        · exact h'
  | fireDoneNow =>
      show LogInv t' (fireDone t' c)
      unfold fireDone
      split
      · exact h'
      · split_ifs with hf
        · refine logInv_untouched h' rfl rfl ?_
          intro hx
          cases hx
        · exact h'

theorem run_logInv (evs : List (Int × Stim)) :
    ∀ (c : Config) (t : Int), LogInv t c →
      List.Chain' (fun a b => a ≤ b) (t :: evs.map Prod.fst) →
      ∃ t', LogInv t' (run c evs) := by
  induction evs with
  | nil =>
      intro c t h _
      exact ⟨t, h⟩
  | cons e rest ih =>
      intro c t h hchain
      obtain ⟨t1, s⟩ := e
      rw [List.map_cons, List.chain'_cons] at hchain
      exact ih (step t1 c s) t1 (step_logInv s h hchain.1) hchain.2

/-- C9: for every event-loop history whose stimulus arrival times are
non-decreasing (a monotonic clock), the offsets stored in the Event Log are
non-decreasing in storage order. -/
theorem offsets_monotone (evs : List (Int × Stim))
    (hmono : List.Chain' (fun a b => a ≤ b) (evs.map Prod.fst)) :
    List.Pairwise (fun a b => a ≤ b)
      ((run initConfig evs).recordedMessages.map (fun r => r.timestamp)) := by
  have hinit : ∀ u : Int, LogInv u initConfig := by
    intro u
    constructor
    · simp [initConfig]
    · intro hs
      simp [initConfig] at hs
  cases evs with
  | nil => simp [run, initConfig]
  | cons e rest =>
      have hchain : List.Chain' (fun a b => a ≤ b) (e.1 :: ((e :: rest).map Prod.fst)) := by
        rw [List.map_cons, List.chain'_cons]
        rw [List.map_cons] at hmono
        exact ⟨le_refl _, hmono⟩
      obtain ⟨t', hinv⟩ := run_logInv (e :: rest) initConfig e.1 (hinit e.1) hchain
      exact hinv.1

/-- Witness for C9: a concrete two-event capture history with times 0 and 5. -/
theorem offsets_monotone_witness :
    List.Chain' (fun a b => a ≤ b) (demoRun.map Prod.fst) ∧
    List.Pairwise (fun a b => a ≤ b)
      ((run initConfig demoRun).recordedMessages.map (fun r => r.timestamp)) :=
  ⟨by norm_num [demoRun, List.chain'_cons],
   offsets_monotone demoRun (by norm_num [demoRun, List.chain'_cons])⟩

end Loopback
